import Mathlib

/-!
Verification of the kernel mutex core.

This file gives a shallow embedding of `src/kmutex.c` (the operations
`kmutex_init`, `kmutex_lock`, `kmutex_lock_cancellable`, `kmutex_unlock`)
together with the thread control-block fields those operations touch
(`kt_state`, `kt_cancelled` of `kthread_t` in `src/include/proc/kthread.h`),
and proves the design document's stated properties about them.

Modelling conventions:

* Threads are identified by natural numbers; a `kthread` record keeps the two
  control-block fields the mutex code reads or writes (`kt_state`,
  `kt_cancelled`).  The remaining fields of `kthread_t` (context, stack,
  return value, errno, process backlink, queue links) are never consulted by
  the mutex code and are omitted.
* The global current-thread pointer `curthr` is passed as an explicit
  parameter to every operation (the design notes of the spec themselves
  suggest exactly this translation).  Since `curthr` always designates an
  actual thread in thread context, the `curthr != NULL` conjunct of every
  KASSERT is represented by the parameter being a thread id at all.
* A `KASSERT` whose condition fails halts the kernel; an operation therefore
  returns an `Option`, with `none` meaning an assertion trap (the operation
  does not return to its caller).
* `sched_switch` suspends the calling thread.  A call that reaches
  `sched_switch` is split at that point: the entry function returns a
  `blocked` outcome holding the state at suspension, and a separate `resume`
  function embeds the code that runs after `sched_switch` returns (for
  `kmutex_lock` that is just the postcondition KASSERT; for
  `kmutex_lock_cancellable` it is the postcondition KASSERT followed by the
  `kt_cancelled` check).
-/

/-- Thread states, from `kthread_state_t` in `src/include/proc/kthread.h`. -/
inductive kthread_state where
  | KT_NO_STATE
  | KT_RUN
  | KT_SLEEP
  | KT_SLEEP_CANCELLABLE
  | KT_EXITED
deriving DecidableEq

open kthread_state

/-- The fields of `kthread_t` that the mutex code reads or writes. -/
structure kthread where
  kt_state : kthread_state
  kt_cancelled : Bool
deriving DecidableEq

/-- Modelled from the spec: `ktqueue_t` is declared in `proc/sched.h`, which is
not among the repository's files.  Section 3 of the design describes it as "an
ordered, FIFO collection of blocked threads plus a count" whose "count always
equals the number of linked threads", so the count (`tq_size`) is represented
by the length of the list.  The head of the list is the longest-waiting
thread. -/
structure ktqueue where
  tq_list : List Nat
deriving DecidableEq

/-- The queue's size field; by the spec's queue invariant it always equals the
number of linked threads. -/
def ktqueue.tq_size (q : ktqueue) : Nat := q.tq_list.length

/-- Modelled from the spec: `ktqueue_enqueue` is external to `kmutex.c`
(declared `extern` there); per section 4.1 it "appends thread to the tail ...
increments size". -/
def ktqueue_enqueue (q : ktqueue) (thr : Nat) : ktqueue :=
  { tq_list := q.tq_list ++ [thr] }

/-- Modelled from the spec: `ktqueue_dequeue` is external to `kmutex.c`; per
section 4.1 it "removes and returns the head thread (undefined/error if
empty), decrements size". -/
def ktqueue_dequeue (q : ktqueue) : Option (Nat × ktqueue) :=
  match q.tq_list with
  | [] => none
  | thr :: rest => some (thr, { tq_list := rest })

/-- `kmutex_t`: one wait queue plus the holder reference (`NULL` = `none`). -/
structure kmutex where
  km_waitq : ktqueue
  km_holder : Option Nat
deriving DecidableEq

/-- The whole state the mutex code can observe or change: the mutex itself,
every thread's control-block fields, and the scheduler's run queue. -/
@[ext]
structure KState where
  mtx : kmutex
  threads : Nat → kthread
  runq : List Nat

/-- Pointwise update of one thread's control block. -/
def setThread (s : KState) (t : Nat) (th : kthread) : KState :=
  { s with threads := fun n => if n = t then th else s.threads n }

/-- The assignment `thr->kt_state = st`. -/
def setState (s : KState) (t : Nat) (st : kthread_state) : KState :=
  setThread s t { s.threads t with kt_state := st }

/-- The assignment `thr->kt_cancelled = b` (performed only by code outside
`kmutex.c`, e.g. `kthread_cancel`; used here to state frame properties). -/
def setCancelled (s : KState) (t : Nat) (b : Bool) : KState :=
  setThread s t { s.threads t with kt_cancelled := b }

/-- Modelled from the spec: `sched_make_runnable` is external to `kmutex.c`;
per section 6 it "moves a thread into the runnable set" (the run queue). -/
def sched_make_runnable (s : KState) (thr : Nat) : KState :=
  { s with runq := s.runq ++ [thr] }

/-- Modelled from the spec: `errno.h` is not among the repository's files;
`EINTR` is the standard "interrupted call" error number. -/
def EINTR : Int := 4

/-- `kmutex_init`: empty wait queue (list initialised, size zero), no
holder. -/
def kmutex_init : kmutex :=
  { km_waitq := { tq_list := [] }, km_holder := none }

/-- Outcome of the entry part of `kmutex_lock`: either the call returned
(`acquired`) or the thread is suspended inside `sched_switch` (`blocked`). -/
inductive LockResult where
  | acquired (s : KState)
  | blocked (s : KState)

/-- The code of `kmutex_lock` that runs after `sched_switch` returns: the
postcondition `KASSERT(curthr && (curthr == mtx->km_holder))`. -/
def kmutex_lock_resume (s : KState) (curthr : Nat) : Option KState :=
  if s.mtx.km_holder = some curthr then some s else none

/-- `kmutex_lock`.  Precondition KASSERT: `curthr` must not already hold the
mutex.  If free, claim it; otherwise set `curthr` to `KT_SLEEP`, enqueue it on
the wait queue and suspend via `sched_switch`.  In the immediate-claim path
execution continues straight to the postcondition KASSERT
(`kmutex_lock_resume`). -/
def kmutex_lock (s : KState) (curthr : Nat) : Option LockResult :=
  if some curthr = s.mtx.km_holder then none
  else if s.mtx.km_holder = none then
    let s' : KState := { s with mtx := { s.mtx with km_holder := some curthr } }
    match kmutex_lock_resume s' curthr with
    | some s'' => some (.acquired s'')
    | none => none
  else
    let s1 := setState s curthr KT_SLEEP
    let s2 : KState :=
      { s1 with mtx := { s1.mtx with km_waitq := ktqueue_enqueue s1.mtx.km_waitq curthr } }
    some (.blocked s2)

/-- `kmutex_unlock`.  Precondition KASSERT: `curthr` must hold the mutex.  If
the wait-queue size is zero the mutex becomes fully free; otherwise the head
waiter is dequeued, installed as holder, set to `KT_RUN` and handed to the run
queue.  Postcondition KASSERT: `curthr` is no longer the holder. -/
def kmutex_unlock (s : KState) (curthr : Nat) : Option KState :=
  if ¬ (s.mtx.km_holder = some curthr) then none
  else
    let s' : KState :=
      if s.mtx.km_waitq.tq_size = 0 then
        { s with mtx := { s.mtx with km_holder := none } }
      else
        match ktqueue_dequeue s.mtx.km_waitq with
        | none => s  -- unreachable: a nonzero tq_size means the queue is nonempty
        | some (next_in_queue, q') =>
          let s1 : KState := { s with mtx := { km_waitq := q', km_holder := some next_in_queue } }
          let s2 := setState s1 next_in_queue KT_RUN
          sched_make_runnable s2 next_in_queue
    if s'.mtx.km_holder = some curthr then none else some s'

/-- Outcome of the entry part of `kmutex_lock_cancellable`: either the call
returned with a code (`done`) or the thread is suspended inside
`sched_switch` (`blocked`). -/
inductive CLockResult where
  | done (ret : Int) (s : KState)
  | blocked (s : KState)

/-- The code of `kmutex_lock_cancellable` that runs after `sched_switch`
returns: the postcondition KASSERT, then the `kt_cancelled` check that
unlocks the mutex and reports `-EINTR`, else reports `0`. -/
def kmutex_lock_cancellable_resume (s : KState) (curthr : Nat) : Option (Int × KState) :=
  if ¬ (s.mtx.km_holder = some curthr) then none
  else if (s.threads curthr).kt_cancelled then
    match kmutex_unlock s curthr with
    | some s' => some (-EINTR, s')
    | none => none
  else
    some (0, s)

/-- `kmutex_lock_cancellable`.  Same claim/block logic as `kmutex_lock` with
`KT_SLEEP_CANCELLABLE` in place of `KT_SLEEP`; in the immediate-claim path
execution continues straight to the post-switch code
(`kmutex_lock_cancellable_resume`). -/
def kmutex_lock_cancellable (s : KState) (curthr : Nat) : Option CLockResult :=
  if some curthr = s.mtx.km_holder then none
  else if s.mtx.km_holder = none then
    let s' : KState := { s with mtx := { s.mtx with km_holder := some curthr } }
    match kmutex_lock_cancellable_resume s' curthr with
    | some (ret, s'') => some (.done ret s'')
    | none => none
  else
    let s1 := setState s curthr KT_SLEEP_CANCELLABLE
    let s2 : KState :=
      { s1 with mtx := { s1.mtx with km_waitq := ktqueue_enqueue s1.mtx.km_waitq curthr } }
    some (.blocked s2)

/-!
### Trace semantics for lock/unlock sequences

The fairness property of the spec quantifies over all interleavings of
`kmutex_lock`/`kmutex_unlock` calls from many threads on one mutex.  The
kernel is cooperatively scheduled on a single CPU, so an execution is a
sequence of calls, each performed atomically by some thread that is currently
running (`KT_RUN`); a thread that blocked inside `kmutex_lock` becomes `KT_RUN`
again exactly when `kmutex_unlock` hands it the mutex.  `traceStep` performs
one such call and additionally keeps two ghost logs: `arrivals`, the threads
in the order they arrived at the wait queue, and `grants`, the threads in the
order they were handed ownership by `kmutex_unlock`. -/
inductive Event where
  | lock (t : Nat)
  | unlock (t : Nat)
deriving DecidableEq

/-- A system state paired with the two ghost logs. -/
structure TraceState where
  sys : KState
  arrivals : List Nat
  grants : List Nat

/-- One atomic call.  The guard requires the calling thread to be running
(a blocked thread cannot execute code); a KASSERT trap aborts the trace. -/
def traceStep (ts : TraceState) (e : Event) : Option TraceState :=
  match e with
  | .lock t =>
    if (ts.sys.threads t).kt_state = KT_RUN then
      match kmutex_lock ts.sys t with
      | some (.acquired s') => some { ts with sys := s' }
      | some (.blocked s') =>
        some { sys := s', arrivals := ts.arrivals ++ [t], grants := ts.grants }
      | none => none
    else none
  | .unlock t =>
    if (ts.sys.threads t).kt_state = KT_RUN then
      match kmutex_unlock ts.sys t with
      | some s' =>
        match ts.sys.mtx.km_waitq.tq_list with
        | [] => some { ts with sys := s' }
        | h :: _ => some { sys := s', arrivals := ts.arrivals, grants := ts.grants ++ [h] }
      | none => none
    else none

/-- Run a whole sequence of calls. -/
def runTrace (ts : TraceState) : List Event → Option TraceState
  | [] => some ts
  | e :: evs =>
    match traceStep ts e with
    | some ts' => runTrace ts' evs
    | none => none

/-- The initial trace state: a freshly initialised mutex, every thread
running and not cancelled, an empty run queue, empty ghost logs. -/
def initTS : TraceState :=
  { sys :=
      { mtx := kmutex_init,
        threads := fun _ => { kt_state := KT_RUN, kt_cancelled := false },
        runq := [] },
    arrivals := [], grants := [] }

/-- The inductive invariant of lock/unlock traces: the arrival log is exactly
the grant log followed by the current wait queue (so grants happen in arrival
order), every queued thread is asleep, and no thread is queued twice. -/
def TraceInv (ts : TraceState) : Prop :=
  ts.arrivals = ts.grants ++ ts.sys.mtx.km_waitq.tq_list ∧
  (∀ t ∈ ts.sys.mtx.km_waitq.tq_list, (ts.sys.threads t).kt_state = KT_SLEEP) ∧
  ts.sys.mtx.km_waitq.tq_list.Nodup

/-- The fairness statement, lifted over traces that trap. -/
def fifoFair : Option TraceState → Prop
  | none => True
  | some ts =>
    (∀ a b, ts.sys.mtx.km_holder = some a → ts.sys.mtx.km_holder = some b → a = b) ∧
    ts.arrivals = ts.grants ++ ts.sys.mtx.km_waitq.tq_list

/-- Holds when a state transition leaves every thread's `kt_cancelled` flag
exactly as it was. -/
def preservesCancelled (s s' : KState) : Prop :=
  ∀ u, (s'.threads u).kt_cancelled = (s.threads u).kt_cancelled

/-- Map a function over the state carried by a `LockResult`. -/
def LockResult.mapS (f : KState → KState) : LockResult → LockResult
  | .acquired s => .acquired (f s)
  | .blocked s => .blocked (f s)

/-! ### Concrete states used by the witnesses -/

/-- Every thread running, none cancelled. -/
def exRun : Nat → kthread := fun _ => { kt_state := KT_RUN, kt_cancelled := false }

/-- A free mutex. -/
def exFree : KState := { mtx := kmutex_init, threads := exRun, runq := [] }

/-- A mutex held by thread 1, nobody waiting. -/
def exHeld : KState :=
  { mtx := { km_waitq := { tq_list := [] }, km_holder := some 1 },
    threads := exRun, runq := [] }

/-- A mutex held by thread 1 with threads 2 and 3 asleep on its wait queue. -/
def exWaiters : KState :=
  { mtx := { km_waitq := { tq_list := [2, 3] }, km_holder := some 1 },
    threads := fun n =>
      if n = 2 ∨ n = 3 then { kt_state := KT_SLEEP, kt_cancelled := false }
      else { kt_state := KT_RUN, kt_cancelled := false },
    runq := [] }

/-- A free mutex with every thread's `kt_cancelled` flag set. -/
def exCancelled : KState :=
  { mtx := kmutex_init,
    threads := fun _ => { kt_state := KT_RUN, kt_cancelled := true },
    runq := [] }

/-- Thread 0 holding the mutex with its `kt_cancelled` flag set, as just after
an `unlock` hand-off to a cancelled waiter. -/
def exResumeCancelled : KState :=
  { mtx := { km_waitq := { tq_list := [] }, km_holder := some 0 },
    threads := fun _ => { kt_state := KT_RUN, kt_cancelled := true },
    runq := [] }

/-! ### Basic lemmas about the embedding -/

@[simp]
theorem setThread_mtx (s : KState) (t : Nat) (th : kthread) :
    (setThread s t th).mtx = s.mtx := rfl

@[simp]
theorem setThread_runq (s : KState) (t : Nat) (th : kthread) :
    (setThread s t th).runq = s.runq := rfl

@[simp]
theorem setThread_threads_self (s : KState) (t : Nat) (th : kthread) :
    (setThread s t th).threads t = th := by
  simp [setThread]

theorem setThread_threads_other (s : KState) (t u : Nat) (th : kthread) (h : u ≠ t) :
    (setThread s t th).threads u = s.threads u := by
  simp [setThread, h]

@[simp]
theorem setState_mtx (s : KState) (t : Nat) (st : kthread_state) :
    (setState s t st).mtx = s.mtx := rfl

@[simp]
theorem setState_runq (s : KState) (t : Nat) (st : kthread_state) :
    (setState s t st).runq = s.runq := rfl

theorem setState_cancelled (s : KState) (t u : Nat) (st : kthread_state) :
    ((setState s t st).threads u).kt_cancelled = (s.threads u).kt_cancelled := by
  by_cases h : u = t
  · subst h; simp [setState]
  · simp [setState, setThread_threads_other _ _ _ _ h]

theorem setState_state (s : KState) (t u : Nat) (st : kthread_state) :
    ((setState s t st).threads u).kt_state =
      if u = t then st else (s.threads u).kt_state := by
  by_cases h : u = t
  · subst h; simp [setState]
  · simp [setState, setThread_threads_other _ _ _ _ h, h]

/-- Inversion of `kmutex_lock` in the `acquired` case: the only way to return
without suspending is the free-mutex path, which sets the holder and nothing
else. -/
theorem kmutex_lock_acquired_inv {s : KState} {t : Nat} {s' : KState}
    (h : kmutex_lock s t = some (LockResult.acquired s')) :
    s' = { s with mtx := { s.mtx with km_holder := some t } } ∧
    s.mtx.km_holder = none := by
  by_cases h1 : some t = s.mtx.km_holder
  · simp [kmutex_lock, h1] at h
  · by_cases h2 : s.mtx.km_holder = none
    · simp [kmutex_lock, kmutex_lock_resume, h1, h2] at h
      exact ⟨h.symm, h2⟩
    · simp [kmutex_lock, h1, h2] at h

/-- Inversion of `kmutex_lock` in the `blocked` case: the only way to suspend
is the held-mutex path, which puts the caller to sleep and enqueues it at the
tail. -/
theorem kmutex_lock_blocked_inv {s : KState} {t : Nat} {s' : KState}
    (h : kmutex_lock s t = some (LockResult.blocked s')) :
    s' = { setState s t KT_SLEEP with
             mtx := { s.mtx with km_waitq := ktqueue_enqueue s.mtx.km_waitq t } } ∧
    ¬ s.mtx.km_holder = none ∧ ¬ s.mtx.km_holder = some t := by
  by_cases h1 : some t = s.mtx.km_holder
  · simp [kmutex_lock, h1] at h
  · by_cases h2 : s.mtx.km_holder = none
    · simp [kmutex_lock, kmutex_lock_resume, h1, h2] at h
    · refine ⟨?_, h2, fun hc => h1 hc.symm⟩
      simp [kmutex_lock, h1, h2] at h
      exact h.symm

/-- Inversion of `kmutex_unlock` with an empty wait queue: the mutex becomes
fully free and nothing else changes. -/
theorem kmutex_unlock_empty_inv {s : KState} {t : Nat} {s' : KState}
    (h : kmutex_unlock s t = some s') (hq : s.mtx.km_waitq.tq_list = []) :
    s' = { s with mtx := { s.mtx with km_holder := none } } ∧
    s.mtx.km_holder = some t := by
  have hsz : s.mtx.km_waitq.tq_size = 0 := by simp [ktqueue.tq_size, hq]
  by_cases h1 : s.mtx.km_holder = some t
  · refine ⟨?_, h1⟩
    simp [kmutex_unlock, h1, hsz] at h
    exact h.symm
  · simp [kmutex_unlock, h1] at h

/-- Inversion of `kmutex_unlock` with a nonempty wait queue: the head waiter
is dequeued, installed as holder, set to `KT_RUN` and appended to the run
queue. -/
theorem kmutex_unlock_cons_inv {s : KState} {t : Nat} {s' : KState} {next : Nat}
    {rest : List Nat}
    (h : kmutex_unlock s t = some s') (hq : s.mtx.km_waitq.tq_list = next :: rest) :
    s' = sched_make_runnable
           (setState
             { s with mtx := { km_waitq := { tq_list := rest }, km_holder := some next } }
             next KT_RUN)
           next ∧
    s.mtx.km_holder = some t ∧ next ≠ t := by
  have hsz : ¬ s.mtx.km_waitq.tq_size = 0 := by simp [ktqueue.tq_size, hq]
  have hdq : ktqueue_dequeue s.mtx.km_waitq = some (next, { tq_list := rest }) := by
    simp [ktqueue_dequeue, hq]
  by_cases h1 : s.mtx.km_holder = some t
  · by_cases h2 : next = t
    · simp [kmutex_unlock, h1, hsz, hdq, h2, sched_make_runnable, setState, setThread] at h
    · refine ⟨?_, h1, h2⟩
      simp [kmutex_unlock, h1, hsz, hdq, h2, sched_make_runnable, setState, setThread] at h
      exact h.symm
  · simp [kmutex_unlock, h1] at h

/-- Forward equation for `kmutex_lock` on a free mutex. -/
theorem kmutex_lock_free_eq (s : KState) (t : Nat) (hfree : s.mtx.km_holder = none) :
    kmutex_lock s t =
      some (LockResult.acquired { s with mtx := { s.mtx with km_holder := some t } }) := by
  have h1 : ¬ some t = s.mtx.km_holder := by simp [hfree]
  simp [kmutex_lock, kmutex_lock_resume, h1, hfree]

/-- Forward equation for `kmutex_lock` on a held mutex. -/
theorem kmutex_lock_held_eq (s : KState) (curthr h : Nat)
    (hheld : s.mtx.km_holder = some h) (hne : h ≠ curthr) :
    kmutex_lock s curthr =
      some (LockResult.blocked
        { setState s curthr KT_SLEEP with
            mtx := { s.mtx with km_waitq := ktqueue_enqueue s.mtx.km_waitq curthr } }) := by
  have h1 : ¬ some curthr = s.mtx.km_holder := by
    simp [hheld]
    exact fun hc => hne hc.symm
  have h2 : ¬ s.mtx.km_holder = none := by simp [hheld]
  simp [kmutex_lock, h1, h2]

/-- Forward equation for `kmutex_unlock` with an empty wait queue. -/
theorem kmutex_unlock_empty_eq (s : KState) (curthr : Nat)
    (hhold : s.mtx.km_holder = some curthr) (hq : s.mtx.km_waitq.tq_list = []) :
    kmutex_unlock s curthr = some { s with mtx := { s.mtx with km_holder := none } } := by
  have hsz : s.mtx.km_waitq.tq_size = 0 := by simp [ktqueue.tq_size, hq]
  simp [kmutex_unlock, hhold, hsz]

/-- Forward equation for `kmutex_unlock` with a nonempty wait queue. -/
theorem kmutex_unlock_cons_eq (s : KState) (curthr next : Nat) (rest : List Nat)
    (hhold : s.mtx.km_holder = some curthr) (hq : s.mtx.km_waitq.tq_list = next :: rest)
    (hne : next ≠ curthr) :
    kmutex_unlock s curthr =
      some (sched_make_runnable
        (setState
          { s with mtx := { km_waitq := { tq_list := rest }, km_holder := some next } }
          next KT_RUN)
        next) := by
  have hsz : ¬ s.mtx.km_waitq.tq_size = 0 := by simp [ktqueue.tq_size, hq]
  have hdq : ktqueue_dequeue s.mtx.km_waitq = some (next, { tq_list := rest }) := by
    simp [ktqueue_dequeue, hq]
  simp [kmutex_unlock, hhold, hsz, hdq, hne, sched_make_runnable, setState, setThread]

/-- `kmutex_unlock` never changes any thread's `kt_cancelled` flag. -/
theorem kmutex_unlock_preserves_flags {s : KState} {t : Nat} {s' : KState}
    (h : kmutex_unlock s t = some s') : preservesCancelled s s' := by
  cases hq : s.mtx.km_waitq.tq_list with
  | nil =>
    obtain ⟨hs', -⟩ := kmutex_unlock_empty_inv h hq
    subst hs'
    intro u; rfl
  | cons next rest =>
    obtain ⟨hs', -, -⟩ := kmutex_unlock_cons_inv h hq
    subst hs'
    intro u
    simp [sched_make_runnable, setState, setThread]
    by_cases hu : u = next <;> simp [hu]

/-- The post-switch code of `kmutex_lock_cancellable` never changes any
thread's `kt_cancelled` flag (it reads the flag but never writes it). -/
theorem kmutex_lock_cancellable_resume_preserves_flags {s : KState} {t : Nat}
    {ret : Int} {s' : KState}
    (h : kmutex_lock_cancellable_resume s t = some (ret, s')) :
    preservesCancelled s s' := by
  by_cases h1 : s.mtx.km_holder = some t
  · by_cases h2 : (s.threads t).kt_cancelled = true
    · simp only [kmutex_lock_cancellable_resume, h1, h2, not_true, if_neg, if_true,
        not_not, if_false] at h
      cases hu : kmutex_unlock s t with
      | none => rw [hu] at h; simp at h
      | some s2 =>
        rw [hu] at h
        simp at h
        obtain ⟨-, hs'⟩ := h
        subst hs'
        exact kmutex_unlock_preserves_flags hu
    · simp [kmutex_lock_cancellable_resume, h1, h2] at h
      obtain ⟨-, hs'⟩ := h
      subst hs'
      intro u; rfl
  · simp [kmutex_lock_cancellable_resume, h1] at h

/-- Inversion of `kmutex_lock_cancellable` in the `done` case: the call
returned without suspending, so the mutex was free, was claimed, and the
post-switch code ran on the claimed state. -/
theorem kmutex_lock_cancellable_done_inv {s : KState} {t : Nat} {ret : Int}
    {s' : KState}
    (h : kmutex_lock_cancellable s t = some (CLockResult.done ret s')) :
    s.mtx.km_holder = none ∧
    kmutex_lock_cancellable_resume
      { s with mtx := { s.mtx with km_holder := some t } } t = some (ret, s') := by
  by_cases h1 : some t = s.mtx.km_holder
  · simp [kmutex_lock_cancellable, h1] at h
  · by_cases h2 : s.mtx.km_holder = none
    · refine ⟨h2, ?_⟩
      simp only [kmutex_lock_cancellable, if_neg h1, h2, if_true, if_pos] at h
      cases hr : kmutex_lock_cancellable_resume
          { s with mtx := { s.mtx with km_holder := some t } } t with
      | none => rw [hr] at h; simp at h
      | some p =>
        rw [hr] at h
        cases p with
        | mk r2 s2 =>
          simp at h
          obtain ⟨hr2, hs2⟩ := h
          rw [hr2, hs2]
    · simp [kmutex_lock_cancellable, h1, h2] at h

/-- Inversion of `kmutex_lock_cancellable` in the `blocked` case: the caller
was put into `KT_SLEEP_CANCELLABLE` and enqueued at the tail. -/
theorem kmutex_lock_cancellable_blocked_inv {s : KState} {t : Nat} {s' : KState}
    (h : kmutex_lock_cancellable s t = some (CLockResult.blocked s')) :
    s' = { setState s t KT_SLEEP_CANCELLABLE with
             mtx := { s.mtx with km_waitq := ktqueue_enqueue s.mtx.km_waitq t } } := by
  by_cases h1 : some t = s.mtx.km_holder
  · simp [kmutex_lock_cancellable, h1] at h
  · by_cases h2 : s.mtx.km_holder = none
    · simp [kmutex_lock_cancellable, kmutex_lock_cancellable_resume, h1, h2] at h
      by_cases h3 : (s.threads t).kt_cancelled = true <;> simp [h3] at h
      cases hu : kmutex_unlock { s with mtx := { s.mtx with km_holder := some t } } t with
      | none => rw [hu] at h; simp at h
      | some s2 => rw [hu] at h; simp at h
    · simp [kmutex_lock_cancellable, h1, h2] at h
      exact h.symm

/-- Forward equation for the post-switch code of `kmutex_lock_cancellable`
when the resumed thread holds the mutex and its `kt_cancelled` flag is set:
the freshly granted lock is released via `kmutex_unlock` and `-EINTR` is
reported; under the invariant that the caller is not linked in the wait queue
the caller is not the holder afterwards, and no `kt_cancelled` flag
changes. -/
theorem kmutex_lock_cancellable_resume_cancelled (s : KState) (curthr : Nat)
    (hflag : (s.threads curthr).kt_cancelled = true)
    (hhold : s.mtx.km_holder = some curthr)
    (hinv : curthr ∉ s.mtx.km_waitq.tq_list) :
    ∃ s', kmutex_lock_cancellable_resume s curthr = some (-EINTR, s') ∧
      ¬ s'.mtx.km_holder = some curthr ∧ preservesCancelled s s' := by
  cases hq : s.mtx.km_waitq.tq_list with
  | nil =>
    refine ⟨{ s with mtx := { s.mtx with km_holder := none } }, ?_, by simp, fun u => rfl⟩
    simp [kmutex_lock_cancellable_resume, hhold, hflag,
      kmutex_unlock_empty_eq s curthr hhold hq]
  | cons next rest =>
    have hne : next ≠ curthr := by
      intro hc
      exact hinv (hc ▸ (hq ▸ List.mem_cons_self next rest))
    refine ⟨sched_make_runnable
        (setState
          { s with mtx := { km_waitq := { tq_list := rest }, km_holder := some next } }
          next KT_RUN)
        next, ?_, ?_, ?_⟩
    · simp [kmutex_lock_cancellable_resume, hhold, hflag,
        kmutex_unlock_cons_eq s curthr next rest hhold hq hne]
    · simp [sched_make_runnable, setState, setThread, hne]
    · intro u
      simp [sched_make_runnable, setState, setThread]
      by_cases hu : u = next <;> simp [hu]

/-- Forward equation for `kmutex_lock_cancellable` on a free mutex when the
caller's `kt_cancelled` flag is set: the mutex is claimed, the flag check
fires, the lock is released again and the call reports `-EINTR`; the caller
does not hold the mutex afterwards and no `kt_cancelled` flag changes. -/
theorem kmutex_lock_cancellable_free_cancelled (s : KState) (curthr : Nat)
    (hflag : (s.threads curthr).kt_cancelled = true)
    (hfree : s.mtx.km_holder = none)
    (hinv : curthr ∉ s.mtx.km_waitq.tq_list) :
    ∃ s', kmutex_lock_cancellable s curthr = some (CLockResult.done (-EINTR) s') ∧
      ¬ s'.mtx.km_holder = some curthr ∧ preservesCancelled s s' := by
  have h1 : ¬ some curthr = s.mtx.km_holder := by simp [hfree]
  obtain ⟨s', hres, hnh, hpc⟩ :=
    kmutex_lock_cancellable_resume_cancelled
      { s with mtx := { s.mtx with km_holder := some curthr } } curthr hflag rfl hinv
  refine ⟨s', ?_, hnh, hpc⟩
  simp [kmutex_lock_cancellable, h1, hfree, hres]

/-! ### The claims -/

/-- C4: a `kmutex_lock` call on a free mutex (`km_holder = none`) claims the
mutex synchronously: the call returns (`acquired`, not `blocked`, so
`sched_switch` is never reached), the holder becomes the calling thread, and
every other component of the state — every thread's control block, the run
queue, the wait queue — is untouched, so no scheduler primitive is
invoked. -/
theorem kmutex_lock_free_immediate (s : KState) (t : Nat)
    (hfree : s.mtx.km_holder = none) :
    kmutex_lock s t =
      some (LockResult.acquired { s with mtx := { s.mtx with km_holder := some t } }) :=
  kmutex_lock_free_eq s t hfree

/-- Witness for C4 at a concrete free mutex. -/
theorem kmutex_lock_free_immediate_witness :
    kmutex_lock
        { mtx := kmutex_init,
          threads := fun _ => { kt_state := KT_RUN, kt_cancelled := false },
          runq := [] } 5 =
      some (LockResult.acquired
        { mtx := { km_waitq := { tq_list := [] }, km_holder := some 5 },
          threads := fun _ => { kt_state := KT_RUN, kt_cancelled := false },
          runq := [] }) :=
  kmutex_lock_free_immediate
    { mtx := kmutex_init,
      threads := fun _ => { kt_state := KT_RUN, kt_cancelled := false },
      runq := [] } 5 rfl

/-- C3: a `kmutex_lock` call on a mutex held by another thread sets the
caller's state to `KT_SLEEP`, enqueues the caller at the tail of the mutex's
wait queue (holder and run queue untouched), and suspends via `sched_switch`
(the `blocked` outcome).  The code that runs when the caller is rescheduled
(`kmutex_lock_resume`) returns the state unchanged with the caller as holder,
and refuses to proceed in any state in which the caller was not handed
ownership — so on return from `kmutex_lock` the caller is always the holder,
and the call reports no failure (its C type is `void`; the embedding's
`LockResult` carries no error code). -/
theorem kmutex_lock_held_sleeps (s : KState) (curthr h : Nat)
    (hheld : s.mtx.km_holder = some h) (hne : h ≠ curthr) :
    (∃ s', kmutex_lock s curthr = some (LockResult.blocked s') ∧
      (s'.threads curthr).kt_state = KT_SLEEP ∧
      s'.mtx.km_waitq.tq_list = s.mtx.km_waitq.tq_list ++ [curthr] ∧
      s'.mtx.km_holder = s.mtx.km_holder ∧
      s'.runq = s.runq) ∧
    (∀ s2 s3 : KState, kmutex_lock_resume s2 curthr = some s3 →
      s3 = s2 ∧ s3.mtx.km_holder = some curthr) ∧
    (∀ s2 : KState, ¬ s2.mtx.km_holder = some curthr →
      kmutex_lock_resume s2 curthr = none) := by
  refine ⟨?_, ?_, ?_⟩
  · refine ⟨{ setState s curthr KT_SLEEP with
        mtx := { s.mtx with km_waitq := ktqueue_enqueue s.mtx.km_waitq curthr } },
      kmutex_lock_held_eq s curthr h hheld hne, ?_, ?_, rfl, rfl⟩
    · simp [setState]
    · simp [ktqueue_enqueue]
  · intro s2 s3 hres
    by_cases hc : s2.mtx.km_holder = some curthr
    · simp [kmutex_lock_resume, hc] at hres
      exact ⟨hres.symm, hres ▸ hc⟩
    · simp [kmutex_lock_resume, hc] at hres
  · intro s2 hc
    simp [kmutex_lock_resume, hc]

/-- Witness for C3: thread 0 locks a mutex held by thread 1. -/
theorem kmutex_lock_held_sleeps_witness :
    (∃ s', kmutex_lock
        { mtx := { km_waitq := { tq_list := [] }, km_holder := some 1 },
          threads := fun _ => { kt_state := KT_RUN, kt_cancelled := false },
          runq := [] } 0 = some (LockResult.blocked s') ∧
      (s'.threads 0).kt_state = KT_SLEEP ∧
      s'.mtx.km_waitq.tq_list = [] ++ [0] ∧
      s'.mtx.km_holder = some 1 ∧
      s'.runq = []) ∧
    (∀ s2 s3 : KState, kmutex_lock_resume s2 0 = some s3 →
      s3 = s2 ∧ s3.mtx.km_holder = some 0) ∧
    (∀ s2 : KState, ¬ s2.mtx.km_holder = some 0 →
      kmutex_lock_resume s2 0 = none) :=
  kmutex_lock_held_sleeps
    { mtx := { km_waitq := { tq_list := [] }, km_holder := some 1 },
      threads := fun _ => { kt_state := KT_RUN, kt_cancelled := false },
      runq := [] } 0 1 rfl (by decide)

/-- C1: `kmutex_unlock` by the current holder.  With an empty wait queue the
holder becomes `none` and nothing else changes.  With waiters, the head of the
queue (the longest-waiting thread) is dequeued and is the holder of the
resulting state — the unlock is a single non-blocking step, so there is no
intervening free state in which a third thread could acquire the mutex; the
dequeued thread's state is set to `KT_RUN`, it is appended to the scheduler's
run queue, the wait-queue size decreases by exactly one and the remaining
waiters keep their relative order (the queue is exactly the old tail).  The
invariant hypothesis `hinv` is the spec's mutex invariant that the holder is
not linked in the mutex's own wait queue. -/
theorem kmutex_unlock_behaviour (s : KState) (curthr : Nat)
    (hhold : s.mtx.km_holder = some curthr)
    (hinv : curthr ∉ s.mtx.km_waitq.tq_list) :
    (s.mtx.km_waitq.tq_list = [] →
      kmutex_unlock s curthr = some { s with mtx := { s.mtx with km_holder := none } }) ∧
    (∀ next rest, s.mtx.km_waitq.tq_list = next :: rest →
      ∃ s', kmutex_unlock s curthr = some s' ∧
        s'.mtx.km_holder = some next ∧
        (s'.threads next).kt_state = KT_RUN ∧
        s'.runq = s.runq ++ [next] ∧
        s'.mtx.km_waitq.tq_list = rest ∧
        s'.mtx.km_waitq.tq_size + 1 = s.mtx.km_waitq.tq_size) := by
  constructor
  · intro hq
    exact kmutex_unlock_empty_eq s curthr hhold hq
  · intro next rest hq
    have hne : next ≠ curthr := by
      intro hc
      exact hinv (hc ▸ (hq ▸ List.mem_cons_self next rest))
    refine ⟨_, kmutex_unlock_cons_eq s curthr next rest hhold hq hne, rfl, ?_, ?_, rfl, ?_⟩
    · simp [sched_make_runnable, setState]
    · simp [sched_make_runnable]
    · simp [ktqueue.tq_size, hq, sched_make_runnable, setState, setThread]

/-- Witness for C1: thread 1 unlocks with threads 2 and 3 waiting. -/
theorem kmutex_unlock_behaviour_witness :
    (exWaiters.mtx.km_waitq.tq_list = [] →
      kmutex_unlock exWaiters 1 =
        some { exWaiters with mtx := { exWaiters.mtx with km_holder := none } }) ∧
    (∀ next rest, exWaiters.mtx.km_waitq.tq_list = next :: rest →
      ∃ s', kmutex_unlock exWaiters 1 = some s' ∧
        s'.mtx.km_holder = some next ∧
        (s'.threads next).kt_state = KT_RUN ∧
        s'.runq = exWaiters.runq ++ [next] ∧
        s'.mtx.km_waitq.tq_list = rest ∧
        s'.mtx.km_waitq.tq_size + 1 = exWaiters.mtx.km_waitq.tq_size) :=
  kmutex_unlock_behaviour exWaiters 1 rfl (by decide)

/-- C7: `kmutex_unlock` by the current holder, under the spec's invariant that
the holder is not linked in the mutex's own wait queue, returns (the
postcondition KASSERT does not trap) and the caller is never the holder
afterwards: the new holder is `none` on an empty wait queue, and otherwise the
dequeued head waiter, which is distinct from the caller. -/
theorem kmutex_unlock_caller_released (s : KState) (curthr : Nat)
    (hhold : s.mtx.km_holder = some curthr)
    (hinv : curthr ∉ s.mtx.km_waitq.tq_list) :
    ∃ s', kmutex_unlock s curthr = some s' ∧ ¬ s'.mtx.km_holder = some curthr := by
  cases hq : s.mtx.km_waitq.tq_list with
  | nil =>
    exact ⟨_, kmutex_unlock_empty_eq s curthr hhold hq, by simp⟩
  | cons next rest =>
    have hne : next ≠ curthr := by
      intro hc
      exact hinv (hc ▸ (hq ▸ List.mem_cons_self next rest))
    refine ⟨_, kmutex_unlock_cons_eq s curthr next rest hhold hq hne, ?_⟩
    simp [sched_make_runnable, setState, setThread, hne]

/-- Witness for C7 at a concrete held mutex with waiters. -/
theorem kmutex_unlock_caller_released_witness :
    ∃ s', kmutex_unlock exWaiters 1 = some s' ∧ ¬ s'.mtx.km_holder = some 1 :=
  kmutex_unlock_caller_released exWaiters 1 rfl (by decide)

/-- C8: on a mutex in its initial free state (no holder, empty wait queue),
`kmutex_lock` followed by `kmutex_unlock` by the same thread succeeds and
returns the mutex exactly to its initial free state. -/
theorem kmutex_lock_unlock_roundtrip (s : KState) (t : Nat)
    (hmtx : s.mtx = kmutex_init) :
    ∃ s' s'', kmutex_lock s t = some (LockResult.acquired s') ∧
      kmutex_unlock s' t = some s'' ∧ s''.mtx = kmutex_init := by
  have hfree : s.mtx.km_holder = none := by rw [hmtx]; rfl
  refine ⟨{ s with mtx := { s.mtx with km_holder := some t } }, _,
    kmutex_lock_free_eq s t hfree, kmutex_unlock_empty_eq _ t rfl ?_, ?_⟩
  · show s.mtx.km_waitq.tq_list = []
    rw [hmtx]; rfl
  · show ({ s.mtx with km_holder := none } : kmutex) = kmutex_init
    rw [hmtx]; rfl

/-- Witness for C8: thread 4 on a concrete freshly initialised mutex. -/
theorem kmutex_lock_unlock_roundtrip_witness :
    ∃ s' s'', kmutex_lock exFree 4 = some (LockResult.acquired s') ∧
      kmutex_unlock s' 4 = some s'' ∧ s''.mtx = kmutex_init :=
  kmutex_lock_unlock_roundtrip exFree 4 rfl

/-- C6: the precondition KASSERT checks detect the two contract violations and
halt rather than mutate anything: locking (plainly or cancellably) a mutex the
caller already holds traps, and unlocking a mutex the caller does not hold
traps — the embedding returns `none` (no resulting state) in all three
cases. -/
theorem kmutex_contract_violations_trap (s : KState) (t : Nat) :
    (s.mtx.km_holder = some t →
      kmutex_lock s t = none ∧ kmutex_lock_cancellable s t = none) ∧
    (¬ s.mtx.km_holder = some t → kmutex_unlock s t = none) := by
  constructor
  · intro hh
    constructor
    · simp [kmutex_lock, hh]
    · simp [kmutex_lock_cancellable, hh]
  · intro hh
    simp [kmutex_unlock, hh]

/-- C2: `kmutex_lock_cancellable` by a thread not already holding the mutex.
The claim/block logic is that of `kmutex_lock` except that the blocked state
is `KT_SLEEP_CANCELLABLE`.  After resuming — by hand-off
(`kmutex_lock_cancellable_resume`, the post-switch code) or by immediate claim
(the free-mutex path, which runs the same post-switch code) — if the caller's
`kt_cancelled` flag is set, the just-granted lock is released via
`kmutex_unlock` and the call reports `-EINTR` with the caller not the holder;
if the flag is clear the call reports `0` with the caller as holder.  The
`hinv`-style premises are the spec's invariant that the caller is not linked
in the mutex's own wait queue. -/
theorem kmutex_lock_cancellable_behaviour (s : KState) (curthr : Nat) :
    (∀ h, s.mtx.km_holder = some h → h ≠ curthr →
      kmutex_lock_cancellable s curthr =
        some (CLockResult.blocked
          { setState s curthr KT_SLEEP_CANCELLABLE with
              mtx := { s.mtx with km_waitq := ktqueue_enqueue s.mtx.km_waitq curthr } })) ∧
    ((s.threads curthr).kt_cancelled = true → s.mtx.km_holder = some curthr →
      curthr ∉ s.mtx.km_waitq.tq_list →
      ∃ s', kmutex_lock_cancellable_resume s curthr = some (-EINTR, s') ∧
        ¬ s'.mtx.km_holder = some curthr) ∧
    ((s.threads curthr).kt_cancelled = false → s.mtx.km_holder = some curthr →
      kmutex_lock_cancellable_resume s curthr = some (0, s)) ∧
    (s.mtx.km_holder = none → (s.threads curthr).kt_cancelled = false →
      kmutex_lock_cancellable s curthr =
        some (CLockResult.done 0
          { s with mtx := { s.mtx with km_holder := some curthr } })) ∧
    (s.mtx.km_holder = none → (s.threads curthr).kt_cancelled = true →
      curthr ∉ s.mtx.km_waitq.tq_list →
      ∃ s', kmutex_lock_cancellable s curthr = some (CLockResult.done (-EINTR) s') ∧
        ¬ s'.mtx.km_holder = some curthr) := by
  refine ⟨?_, ?_, ?_, ?_, ?_⟩
  · intro h hheld hne
    have h1 : ¬ some curthr = s.mtx.km_holder := by
      simp [hheld]
      exact fun hc => hne hc.symm
    have h2 : ¬ s.mtx.km_holder = none := by simp [hheld]
    simp [kmutex_lock_cancellable, h1, h2]
  · intro hflag hhold hinv
    obtain ⟨s', hres, hnh, _⟩ :=
      kmutex_lock_cancellable_resume_cancelled s curthr hflag hhold hinv
    exact ⟨s', hres, hnh⟩
  · intro hflag hhold
    simp [kmutex_lock_cancellable_resume, hhold, hflag]
  · intro hfree hflag
    have h1 : ¬ some curthr = s.mtx.km_holder := by simp [hfree]
    simp [kmutex_lock_cancellable, kmutex_lock_cancellable_resume, h1, hfree, hflag]
  · intro hfree hflag hinv
    obtain ⟨s', hres, hnh, _⟩ :=
      kmutex_lock_cancellable_free_cancelled s curthr hflag hfree hinv
    exact ⟨s', hres, hnh⟩

/-- C9: no mutex operation ever modifies any thread's `kt_cancelled` flag
(`kmutex_init` constructs a bare `kmutex` and cannot touch a thread at all):
every outcome of `kmutex_lock`, `kmutex_unlock`, `kmutex_lock_cancellable` and
the post-switch resume codes leaves every flag as it was.
`kmutex_lock_cancellable` reads the flag but never clears it, so after an
interruption return the flag is still set, and a subsequent
`kmutex_lock_cancellable` call by that thread (the mutex now being free again)
again reports `-EINTR` — until something outside the mutex code clears the
flag. -/
theorem kmutex_ops_preserve_cancelled (s : KState) (t : Nat) :
    (∀ s', kmutex_lock s t = some (LockResult.acquired s') → preservesCancelled s s') ∧
    (∀ s', kmutex_lock s t = some (LockResult.blocked s') → preservesCancelled s s') ∧
    (∀ s', kmutex_lock_resume s t = some s' → preservesCancelled s s') ∧
    (∀ s', kmutex_unlock s t = some s' → preservesCancelled s s') ∧
    (∀ ret s', kmutex_lock_cancellable_resume s t = some (ret, s') →
      preservesCancelled s s') ∧
    (∀ ret s', kmutex_lock_cancellable s t = some (CLockResult.done ret s') →
      preservesCancelled s s') ∧
    (∀ s', kmutex_lock_cancellable s t = some (CLockResult.blocked s') →
      preservesCancelled s s') ∧
    ((s.threads t).kt_cancelled = true → s.mtx.km_holder = none →
      t ∉ s.mtx.km_waitq.tq_list →
      ∃ s', kmutex_lock_cancellable s t = some (CLockResult.done (-EINTR) s') ∧
        (s'.threads t).kt_cancelled = true) := by
  refine ⟨?_, ?_, ?_, ?_, ?_, ?_, ?_, ?_⟩
  · intro s' h
    obtain ⟨hs', -⟩ := kmutex_lock_acquired_inv h
    subst hs'
    intro u; rfl
  · intro s' h
    obtain ⟨hs', -, -⟩ := kmutex_lock_blocked_inv h
    subst hs'
    intro u
    simp [setState, setThread]
    by_cases hu : u = t <;> simp [hu]
  · intro s' h
    by_cases h1 : s.mtx.km_holder = some t
    · simp [kmutex_lock_resume, h1] at h
      subst h
      intro u; rfl
    · simp [kmutex_lock_resume, h1] at h
  · intro s' h
    exact kmutex_unlock_preserves_flags h
  · intro ret s' h
    exact kmutex_lock_cancellable_resume_preserves_flags h
  · intro ret s' h
    obtain ⟨-, hres⟩ := kmutex_lock_cancellable_done_inv h
    have hpc := kmutex_lock_cancellable_resume_preserves_flags hres
    exact fun u => hpc u
  · intro s' h
    have hs' := kmutex_lock_cancellable_blocked_inv h
    subst hs'
    intro u
    simp [setState, setThread]
    by_cases hu : u = t <;> simp [hu]
  · intro hflag hfree hinv
    obtain ⟨s', hres, -, hpc⟩ :=
      kmutex_lock_cancellable_free_cancelled s t hflag hfree hinv
    exact ⟨s', hres, (hpc t).trans hflag⟩

/-- C10: `kmutex_lock` never consults the calling thread's `kt_cancelled`
flag.  First conjunct: setting the flag to any value before the call commutes
with the call — the control flow and every other component of the outcome are
identical, so the outcome is independent of the flag.  The remaining
conjuncts: a thread whose flag is set (or not) still claims a free mutex
immediately, still blocks on a held mutex with its flag untouched, and the
resume code returns normally with the caller as holder — `kmutex_lock`'s
outcome carries no error condition at all (its C return type is `void`), so
no interruption can be reported. -/
theorem kmutex_lock_ignores_cancelled (s : KState) (t : Nat) (b : Bool) :
    kmutex_lock (setCancelled s t b) t =
      (kmutex_lock s t).map (LockResult.mapS (fun x => setCancelled x t b)) ∧
    (s.mtx.km_holder = none →
      kmutex_lock s t =
        some (LockResult.acquired { s with mtx := { s.mtx with km_holder := some t } })) ∧
    (∀ h, s.mtx.km_holder = some h → h ≠ t →
      ∃ s', kmutex_lock s t = some (LockResult.blocked s') ∧
        (s'.threads t).kt_cancelled = (s.threads t).kt_cancelled) ∧
    (∀ s2 : KState, s2.mtx.km_holder = some t → kmutex_lock_resume s2 t = some s2) := by
  refine ⟨?_, ?_, ?_, ?_⟩
  · by_cases h1 : some t = s.mtx.km_holder
    · simp [kmutex_lock, h1, setCancelled, setThread]
    · by_cases h2 : s.mtx.km_holder = none
      · simp [kmutex_lock, kmutex_lock_resume, h1, h2, LockResult.mapS,
          setCancelled, setThread]
      · simp [kmutex_lock, h1, h2, LockResult.mapS, setCancelled, setState, setThread,
          ktqueue_enqueue]
        ext n : 1
        by_cases hn : n = t <;> simp [hn]
  · intro hfree
    exact kmutex_lock_free_eq s t hfree
  · intro h hheld hne
    refine ⟨_, kmutex_lock_held_eq s t h hheld hne, ?_⟩
    simp [setState, setThread]
  · intro s2 h2
    simp [kmutex_lock_resume, h2]

/-- One call preserves the trace invariant. -/
theorem traceStep_preserves_inv {ts ts' : TraceState} {e : Event}
    (h : traceStep ts e = some ts') (hinv : TraceInv ts) : TraceInv ts' := by
  obtain ⟨hlog, hsleep, hnodup⟩ := hinv
  cases e with
  | lock t =>
    by_cases hrun : (ts.sys.threads t).kt_state = KT_RUN
    · simp only [traceStep, hrun, if_true, if_pos] at h
      cases hk : kmutex_lock ts.sys t with
      | none => rw [hk] at h; simp at h
      | some r =>
        rw [hk] at h
        cases r with
        | acquired s' =>
          simp at h
          subst h
          obtain ⟨hs', -⟩ := kmutex_lock_acquired_inv hk
          subst hs'
          exact ⟨hlog, hsleep, hnodup⟩
        | blocked s' =>
          simp at h
          subst h
          obtain ⟨hs', -, -⟩ := kmutex_lock_blocked_inv hk
          subst hs'
          have htnot : t ∉ ts.sys.mtx.km_waitq.tq_list := by
            intro hmem
            rw [hsleep t hmem] at hrun
            exact absurd hrun (by decide)
          refine ⟨?_, ?_, ?_⟩
          · simp only [ktqueue_enqueue]
            rw [hlog, List.append_assoc]
          · intro u hu
            simp only [ktqueue_enqueue, List.mem_append, List.mem_singleton] at hu
            rcases hu with hu | hu
            · have hut : u ≠ t := fun hc => htnot (hc ▸ hu)
              show ((setState ts.sys t KT_SLEEP).threads u).kt_state = KT_SLEEP
              rw [setState_state]
              simp [hut]
              exact hsleep u hu
            · subst hu
              show ((setState ts.sys u KT_SLEEP).threads u).kt_state = KT_SLEEP
              rw [setState_state]
              simp
          · simp only [ktqueue_enqueue]
            simp [List.nodup_append, hnodup, htnot]
    · simp [traceStep, hrun] at h
  | unlock t =>
    by_cases hrun : (ts.sys.threads t).kt_state = KT_RUN
    · simp only [traceStep, hrun, if_true, if_pos] at h
      cases hk : kmutex_unlock ts.sys t with
      | none => rw [hk] at h; simp at h
      | some s' =>
        rw [hk] at h
        cases hq : ts.sys.mtx.km_waitq.tq_list with
        | nil =>
          rw [hq] at h
          simp at h
          subst h
          obtain ⟨hs', -⟩ := kmutex_unlock_empty_inv hk hq
          subst hs'
          refine ⟨?_, ?_, ?_⟩
          · exact hlog
          · exact hsleep
          · exact hnodup
        | cons next rest =>
          rw [hq] at h
          simp at h
          subst h
          obtain ⟨hs', -, -⟩ := kmutex_unlock_cons_inv hk hq
          subst hs'
          rw [hq] at hnodup
          have hnrest : next ∉ rest := (List.nodup_cons.mp hnodup).1
          refine ⟨?_, ?_, ?_⟩
          · show ts.arrivals = (ts.grants ++ [next]) ++ rest
            rw [hlog, hq]
            simp
          · intro u hu
            have hune : u ≠ next := fun hc => hnrest (hc ▸ hu)
            show ((setState _ next KT_RUN).threads u).kt_state = KT_SLEEP
            rw [setState_state]
            simp only [hune, if_false, if_neg hune]
            exact hsleep u (by rw [hq]; exact List.mem_cons_of_mem next hu)
          · exact (List.nodup_cons.mp hnodup).2
    · simp [traceStep, hrun] at h

/-- A whole trace preserves the trace invariant. -/
theorem runTrace_preserves_inv (evs : List Event) :
    ∀ ts ts', runTrace ts evs = some ts' → TraceInv ts → TraceInv ts' := by
  induction evs with
  | nil =>
    intro ts ts' h hi
    simp [runTrace] at h
    subst h
    exact hi
  | cons e evs ih =>
    intro ts ts' h hi
    rw [runTrace] at h
    cases hs : traceStep ts e with
    | none => rw [hs] at h; simp at h
    | some ts1 =>
      rw [hs] at h
      exact ih ts1 ts' h (traceStep_preserves_inv hs hi)

/-- The initial trace state satisfies the invariant. -/
theorem initTS_inv : TraceInv initTS :=
  ⟨rfl, by intro t ht; simp [initTS, kmutex_init] at ht, List.nodup_nil⟩

/-- C5: for every sequence of `kmutex_lock`/`kmutex_unlock` calls by any
threads on one mutex, starting from a freshly initialised mutex with every
thread running: at most one thread holds the mutex at any instant (the holder
field designates at most one thread), and ownership hand-offs happen in
exactly wait-queue arrival order — the ghost grant log is always a prefix of
the ghost arrival log, with the still-waiting threads (in order) making up the
rest.  Since this holds after every trace, it holds at every instant of every
interleaving; the longest-waiting thread always receives the lock next. -/
theorem kmutex_fifo_fairness (evs : List Event) : fifoFair (runTrace initTS evs) := by
  cases hr : runTrace initTS evs with
  | none => simp [fifoFair]
  | some ts =>
    have hinv : TraceInv ts := runTrace_preserves_inv evs initTS ts hr initTS_inv
    refine ⟨fun a b ha hb => Option.some.inj (ha ▸ hb), hinv.1⟩

/-! ### Concrete executions of the embedding

Sanity checks that the embedded operations compute the expected results on
small concrete states, mirroring the spec's end-to-end scenarios. -/

/-- Hand-off: thread 1 unlocks while 2 and 3 wait; 2 becomes holder directly,
is set to `KT_RUN` and enters the run queue; 3 keeps its place. -/
theorem unlock_handoff_eval :
    (kmutex_unlock exWaiters 1).map
        (fun s => (s.mtx.km_holder, s.mtx.km_waitq.tq_list, s.runq,
          (s.threads 2).kt_state)) =
      some (some 2, [3], [2], KT_RUN) := rfl

/-- Self-lock and foreign unlock trap on the precondition KASSERTs. -/
theorem contract_violation_eval :
    kmutex_lock exHeld 1 = none ∧ kmutex_unlock exHeld 0 = none := ⟨rfl, rfl⟩

/-- Three threads lock in order 0, 1, 2 and unlock hand-offs follow arrival
order exactly; the trace ends with a free mutex. -/
theorem fifo_trace_eval :
    (runTrace initTS
        [Event.lock 0, Event.lock 1, Event.lock 2,
         Event.unlock 0, Event.unlock 1, Event.unlock 2]).map
        (fun ts => (ts.arrivals, ts.grants, ts.sys.mtx.km_holder,
          ts.sys.mtx.km_waitq.tq_list, ts.sys.runq)) =
      some ([1, 2], [1, 2], none, [], [1, 2]) := rfl

/-- A cancelled thread that claims a free mutex cancellably gets the lock,
releases it at once and reports `-EINTR`, leaving the mutex free and every
flag untouched: the whole state is back to what it was. -/
theorem cancellable_interruption_eval :
    kmutex_lock_cancellable exCancelled 7 =
      some (CLockResult.done (-EINTR) exCancelled) := rfl

/-- The hand-off target of an `unlock` that observes its `kt_cancelled` flag
on resume releases the lock again and reports `-EINTR`. -/
theorem resume_cancelled_eval :
    (kmutex_lock_cancellable_resume exResumeCancelled 0).map
        (fun p => (p.1, p.2.mtx.km_holder)) = some (-EINTR, none) := rfl
